import Mathlib

/-!
Shallow embedding of `src/src/glob.ts` (the match orchestrator of node-glob):
the `Glob` class constructor, `process`, `processSync`, `doNonull`, `finish`
and `sort`, together with spec-modelled interfaces for the two external
collaborators (the Minimatch pattern compiler and the GlobWalker traversal
engine, whose sources are not part of the orchestrator).

JS `Set<string>` values are modelled as insertion-ordered duplicate-free
`List String`; machine strings are Lean `String`; the fallible spots
(`throw`, spreading `matches[0]` when it is `undefined`) are modelled with
`Except String`.
-/

namespace NodeGlob

/-- JS `Set.add`: append the element unless it is already present
(insertion-order preserving, uniqueness enforcing). -/
def jsSetAdd (s : List String) (x : String) : List String :=
  if x ∈ s then s else s ++ [x]

/-- Add every element of `l`, in order, to the set `s` via `jsSetAdd`. -/
def jsSetAddAll (s : List String) (l : List String) : List String :=
  l.foldl jsSetAdd s

/-- Embeds `.replace(/\\/g, '/')`: every backslash becomes a forward slash. -/
def replaceBackslashes (p : String) : String :=
  ⟨p.data.map (fun c => if c = '\\' then '/' else c)⟩

/-- Lexicographic strict comparison of character lists by code point. -/
def strLtData : List Char → List Char → Bool
  | [], [] => false
  | [], _ :: _ => true
  | _ :: _, [] => false
  | c :: s, d :: t =>
    if c.toNat < d.toNat then true
    else if d.toNat < c.toNat then false
    else strLtData s t

/-- Lexicographic strict comparison of strings by code point. -/
def strLt (a b : String) : Bool :=
  strLtData a.data b.data

/-- Modelled from the spec: `String.prototype.localeCompare` under the fixed
neutral `'en'` locale is host ICU code, absent from the repository; the spec
describes it as a fixed, reproducible, locale-aware lexicographic string
comparison, modelled here as code-point lexicographic comparison, returning
negative / zero / positive as `localeCompare` does. -/
def localeCompareEn (a b : String) : Int :=
  if strLt a b then -1 else if strLt b a then 1 else 0

/-- Boolean form of the comparator used by the sort call site
(`(a, b) => a.localeCompare(b, 'en')` keeps `a` before `b` iff the result
is non-positive). -/
def localeLe (a b : String) : Bool :=
  decide (localeCompareEn a b ≤ 0)

/-- Modelled from the spec: one compiled `Minimatch` instance (the external
PatternCompiler, `minimatch` is not part of this repository). It exposes the
three parallel per-alternative views that `glob.ts` consumes: `set`
(matchable form, whose entries the orchestrator never inspects, hence the
type parameter `α`), `globSet` (the literal glob string of each alternative)
and `globParts` (the parsed path segments of each alternative). -/
structure Minimatch (α : Type) where
  set : List α
  globSet : List String
  globParts : List (List String)

/-- The options bag `GlobOptions`. Absent boolean members are JS `undefined`,
which `!!` coerces to `false`, so booleans default to `false`; `cwd` may be
absent (`options.cwd || ''`); `allowWindowsEscape` is only consulted via a
strict `=== false` comparison, so it is kept as `Option Bool`. -/
structure GlobOptions where
  ignore : List String := []
  follow : Bool := false
  dot : Bool := false
  mark : Bool := false
  nodir : Bool := false
  nounique : Bool := false
  nosort : Bool := false
  cwd : Option String := none
  realpath : Bool := false
  absolute : Bool := false
  nonull : Bool := false
  matchBase : Bool := false
  windowsPathsNoEscape : Bool := false
  allowWindowsEscape : Option Bool := none
  noglobstar : Bool := false

/-- The state of a constructed `Glob` object. `α` is the (uninspected) type
of one `matchSet` entry. The `matches?: Set<string>` member (allocated
exactly when `nounique` is unset and shared with every walker) is modelled
inside `walkResults` below. -/
structure Glob (α : Type) where
  pattern : List String := []
  ignore : List String := []
  follow : Bool := false
  dot : Bool := false
  mark : Bool := false
  nodir : Bool := false
  nounique : Bool := false
  nosort : Bool := false
  cwd : String := ""
  realpath : Bool := false
  nonull : Bool := false
  absolute : Bool := false
  matchBase : Bool := false
  windowsPathsNoEscape : Bool := false
  noglobstar : Bool := false
  matchSet : List α := []
  globSet : List String := []
  globParts : List (List String) := []

/-- Embeds `this.windowsPathsNoEscape = !!options.windowsPathsNoEscape ||
(options as GlobOptions).allowWindowsEscape === false`. -/
def effectiveWpne (options : GlobOptions) : Bool :=
  options.windowsPathsNoEscape || options.allowWindowsEscape == some false

/-- Embeds the constructor's cwd step: `this.cwd = options.cwd || ''`,
backslashes replaced when the platform is win32. -/
def normCwd (isWin32 : Bool) (options : GlobOptions) : String :=
  let cwd0 := options.cwd.getD ""
  if isWin32 then replaceBackslashes cwd0 else cwd0

/-- Embeds the constructor's pattern rewriting: backslash replacement in
every pattern when `windowsPathsNoEscape` is effective (note: with no
platform test, unlike the cwd step), then the `matchBase` rewrite of every
separator-free pattern `p` to `**/p`. -/
def rewritePatterns (options : GlobOptions) (pattern : List String) : List String :=
  let pattern1 :=
    if effectiveWpne options then pattern.map replaceBackslashes else pattern
  if options.matchBase then
    pattern1.map (fun p => if p.contains '/' then p else "**/" ++ p)
  else pattern1

/-- Embeds the `Glob` constructor. `mm` is the external Minimatch compiler
(one call per rewritten pattern, always with the fixed policy options);
`isWin32` injects the ambient `process.platform === 'win32'` test. The
`string | string[]` input is taken in its array form (a single string is
wrapped into a one-element array by the constructor before any use).
The `throw new TypeError` is an `Except.error`; the constructor performs no
filesystem access, so the error is synchronous and precedes all matching. -/
def Glob.create {α : Type} (mm : String → Minimatch α) (isWin32 : Bool)
    (pattern : List String) (options : GlobOptions) : Except String (Glob α) :=
  if options.matchBase && options.noglobstar then
    Except.error "base matching requires globstar"
  else
    Except.ok
      { pattern := rewritePatterns options pattern
        ignore := options.ignore
        follow := options.follow
        dot := options.dot
        mark := options.mark
        nodir := options.nodir
        nounique := options.nounique
        nosort := options.nosort
        cwd := normCwd isWin32 options
        realpath := options.realpath
        nonull := options.nonull
        absolute := options.absolute
        matchBase := options.matchBase
        windowsPathsNoEscape := effectiveWpne options
        noglobstar := options.noglobstar
        matchSet := ((rewritePatterns options pattern).map mm).flatMap Minimatch.set
        globSet := ((rewritePatterns options pattern).map mm).flatMap Minimatch.globSet
        globParts := ((rewritePatterns options pattern).map mm).flatMap Minimatch.globParts }

/-- Modelled from the spec: the traversal engine (`GlobWalker`, not part of
the orchestrator source) offers a suspending and a blocking walk with
identical results; `walk i` (resp. `walkSync i`) is the
traversal-discovery-ordered list of paths the engine yields for compiled
alternative `i` against the ambient filesystem. -/
structure WalkOracle where
  walk : Nat → List String
  walkSync : Nat → List String

/-- Modelled from the spec: the insertion-order-preserving,
uniqueness-enforcing shared collection (`glob.matches`) that every walker
fills during traversal when `nounique` is unset: all alternatives'
discoveries, in alternative order then discovery order, deduplicated. -/
def sharedMatches (n : Nat) (w : Nat → List String) : List String :=
  (List.range n).foldl (fun acc i => jsSetAddAll acc (w i)) []

/-- Modelled from the spec: the list of per-alternative result sets the
walkers return for `n` alternatives. With `nounique` set every walker owns a
fresh set holding its own discoveries (deduplicated within itself); with
`nounique` unset every walker returns the one shared collection, which by
the fan-in barrier holds every alternative's matches when it is read. -/
def walkResults (nounique : Bool) (n : Nat) (w : Nat → List String) :
    List (List String) :=
  if nounique then (List.range n).map (fun i => jsSetAddAll [] (w i))
  else (List.range n).map (fun _ => sharedMatches n w)

/-- Embeds `doNonull`: record the literal glob string of every alternative
whose result set is empty (when `nonull` is set), then add every recorded
string into result-set 0. `matches[0].add` is only reached when `nulls` is
non-empty, which requires `matches` non-empty, so the empty case is total. -/
def Glob.doNonull {α : Type} (g : Glob α) (ms : List (List String)) :
    List (List String) :=
  let nulls := (List.range ms.length).filterMap fun i =>
    if (ms.getD i []).isEmpty && g.nonull then some (g.globSet.getD i "")
    else none
  match ms with
  | [] => []
  | m0 :: rest => jsSetAddAll m0 nulls :: rest

/-- Inserts one element into an already-sorted list, keeping it before the
first element it compares non-positively against. -/
def insertLe (x : String) : List String → List String
  | [] => [x]
  | y :: t => if localeLe x y then x :: y :: t else y :: insertLe x t

/-- Embeds `sort`: `flat.sort((a, b) => a.localeCompare(b, 'en'))`, a stable
comparison sort by the fixed-locale comparator, modelled as stable insertion
sort by that comparator. -/
def Glob.sortEn (flat : List String) : List String :=
  match flat with
  | [] => []
  | x :: t => insertLe x (Glob.sortEn t)

/-- Embeds `finish`: spread result-set 0 (`[...matches[0]]` throws a
`TypeError` when `matches` is empty, since `matches[0]` is `undefined`),
append every member of every result set when `nounique` is set, and sort
unless `nosort` is set. -/
def Glob.finish {α : Type} (g : Glob α) (ms : List (List String)) :
    Except String (List String) :=
  match ms with
  | [] => Except.error "TypeError: matches is not iterable"
  | m0 :: rest =>
    let raw := if g.nounique then m0 ++ (m0 :: rest).flatten else m0
    Except.ok (if g.nosort then raw else Glob.sortEn raw)

/-- Embeds `process`: walk every alternative with the suspending walker
(fan-out with a fan-in barrier), then `finish (doNonull matches)`. -/
def Glob.process {α : Type} (g : Glob α) (o : WalkOracle) :
    Except String (List String) :=
  g.finish (g.doNonull (walkResults g.nounique g.matchSet.length o.walk))

/-- Embeds `processSync`: walk every alternative with the blocking walker,
in declared order, then `finish (doNonull matches)`. -/
def Glob.processSync {α : Type} (g : Glob α) (o : WalkOracle) :
    Except String (List String) :=
  g.finish (g.doNonull (walkResults g.nounique g.matchSet.length o.walkSync))

/-! Concrete instances used to evaluate the development on closed inputs. -/

/-- Compiler oracle with one alternative per pattern whose literal string is
the pattern itself. -/
def mmId : String → Minimatch Nat := fun p => ⟨[0], [p], [[p]]⟩

/-- Compiler oracle with two alternatives per pattern (brace-style fan-out). -/
def mmTwo : String → Minimatch Nat :=
  fun p => ⟨[0, 1], [p, p ++ ".alt"], [[p], [p, "alt"]]⟩

/-- Walker oracle discovering nothing for any alternative. -/
def oEmpty : WalkOracle := ⟨fun _ => [], fun _ => []⟩

/-- Walker oracle discovering exactly `a.txt` for every alternative. -/
def oAtxt : WalkOracle := ⟨fun _ => ["a.txt"], fun _ => ["a.txt"]⟩

/-- The `Glob` state produced by compiling the pattern list
`["a.txt", "a.txt"]` (the same pattern supplied twice) with `mmId`. -/
def gW2 : Glob Nat :=
  { pattern := ["a.txt", "a.txt"], matchSet := [0, 0],
    globSet := ["a.txt", "a.txt"], globParts := [["a.txt"], ["a.txt"]] }

/-- A `Glob` state with one alternative, `nonull` set, whose literal glob
string is `missing/*.xyz`. -/
def gW3 : Glob Nat :=
  { nonull := true, pattern := ["missing/*.xyz"], matchSet := [0],
    globSet := ["missing/*.xyz"], globParts := [["missing/*.xyz"]] }

/-- The `Glob` state produced by compiling the single pattern `x` with
`mmId`. -/
def gOne : Glob Nat :=
  { pattern := ["x"], matchSet := [0], globSet := ["x"], globParts := [["x"]] }

/-- The `Glob` state produced by compiling the pattern list `["x", "y"]`
with the two-alternative compiler `mmTwo`. -/
def gW7 : Glob Nat :=
  { pattern := ["x", "y"], matchSet := [0, 1, 0, 1],
    globSet := ["x", "x.alt", "y", "y.alt"],
    globParts := [["x"], ["x", "alt"], ["y"], ["y", "alt"]] }

/-- The `Glob` state produced on a win32 host from pattern `c\d` with
`allowWindowsEscape === false` and cwd `a\b`. -/
def gW8 : Glob Nat :=
  { pattern := ["c/d"], cwd := "a/b", windowsPathsNoEscape := true,
    matchSet := [0], globSet := ["c/d"], globParts := [["c/d"]] }

/-! Helper lemmas about the set model, the comparator and the pipeline. -/

theorem mem_jsSetAdd {s : List String} {x y : String} :
    x ∈ jsSetAdd s y ↔ x ∈ s ∨ x = y := by
  unfold jsSetAdd
  split
  · rename_i hy
    constructor
    · exact Or.inl
    · rintro (h | rfl)
      · exact h
      · exact hy
  · simp [List.mem_append]

theorem nodup_jsSetAdd {s : List String} {y : String} (h : s.Nodup) :
    (jsSetAdd s y).Nodup := by
  unfold jsSetAdd
  split
  · exact h
  · rename_i hy
    simp [List.nodup_append, h, hy]

theorem mem_jsSetAddAll {l : List String} : ∀ {s : List String} {x : String},
    x ∈ jsSetAddAll s l ↔ x ∈ s ∨ x ∈ l := by
  induction l with
  | nil => intro s x; simp [jsSetAddAll]
  | cons a t ih =>
    intro s x
    have h1 : jsSetAddAll s (a :: t) = jsSetAddAll (jsSetAdd s a) t := rfl
    rw [h1, ih, mem_jsSetAdd]
    simp only [List.mem_cons]
    tauto

theorem nodup_jsSetAddAll {l : List String} : ∀ {s : List String},
    s.Nodup → (jsSetAddAll s l).Nodup := by
  induction l with
  | nil => intro s h; exact h
  | cons a t ih => intro s h; exact ih (nodup_jsSetAdd h)

theorem nodup_foldl_jsSetAddAll {β : Type} (f : β → List String) (L : List β) :
    ∀ acc : List String, acc.Nodup →
      (L.foldl (fun a b => jsSetAddAll a (f b)) acc).Nodup := by
  induction L with
  | nil => intro acc h; exact h
  | cons b t ih => intro acc h; exact ih _ (nodup_jsSetAddAll h)

theorem nodup_sharedMatches (n : Nat) (w : Nat → List String) :
    (sharedMatches n w).Nodup :=
  nodup_foldl_jsSetAddAll w (List.range n) [] List.nodup_nil

theorem length_walkResults (u : Bool) (n : Nat) (w : Nat → List String) :
    (walkResults u n w).length = n := by
  unfold walkResults
  split <;> simp

theorem nodup_walkResults (u : Bool) (n : Nat) (w : Nat → List String) :
    ∀ s ∈ walkResults u n w, s.Nodup := by
  intro s hs
  unfold walkResults at hs
  split at hs
  · obtain ⟨i, _, rfl⟩ := List.mem_map.mp hs
    exact nodup_jsSetAddAll List.nodup_nil
  · obtain ⟨i, _, rfl⟩ := List.mem_map.mp hs
    exact nodup_sharedMatches _ _

theorem strLtData_cons_iff {c d : Char} {s t : List Char} :
    strLtData (c :: s) (d :: t) = true ↔
      c.toNat < d.toNat ∨ (c.toNat = d.toNat ∧ strLtData s t = true) := by
  simp only [strLtData]
  split
  · rename_i h
    exact iff_of_true rfl (Or.inl h)
  · split
    · rename_i h1 h2
      exact iff_of_false (fun hh => nomatch hh)
        (by rintro (hh | ⟨hh, _⟩) <;> omega)
    · rename_i h1 h2
      constructor
      · intro hh
        exact Or.inr ⟨by omega, hh⟩
      · rintro (hh | ⟨_, hh⟩)
        · omega
        · exact hh

theorem strLtData_cons_false_iff {c d : Char} {s t : List Char} :
    strLtData (c :: s) (d :: t) = false ↔
      d.toNat < c.toNat ∨ (c.toNat = d.toNat ∧ strLtData s t = false) := by
  simp only [strLtData]
  split
  · rename_i h
    exact iff_of_false (fun hh => nomatch hh)
      (by rintro (hh | ⟨hh, _⟩) <;> omega)
  · split
    · rename_i h1 h2
      exact iff_of_true rfl (Or.inl h2)
    · rename_i h1 h2
      constructor
      · intro hh
        exact Or.inr ⟨by omega, hh⟩
      · rintro (hh | ⟨_, hh⟩)
        · omega
        · exact hh

theorem strLtData_asymm : ∀ s t : List Char,
    strLtData s t = true → strLtData t s = true → False := by
  intro s
  induction s with
  | nil =>
    intro t h1 h2
    cases t with
    | nil => exact absurd h1 (by simp [strLtData])
    | cons d t' => exact absurd h2 (by simp [strLtData])
  | cons c s' ih =>
    intro t h1 h2
    cases t with
    | nil => exact absurd h1 (by simp [strLtData])
    | cons d t' =>
      rw [strLtData_cons_iff] at h1 h2
      rcases h1 with h1 | ⟨h1e, h1r⟩ <;> rcases h2 with h2 | ⟨h2e, h2r⟩
      · omega
      · omega
      · omega
      · exact ih t' h1r h2r

theorem strLtData_neg_trans : ∀ s t u : List Char,
    strLtData t s = false → strLtData u t = false → strLtData u s = false := by
  intro s
  induction s with
  | nil =>
    intro t u h1 h2
    cases u <;> rfl
  | cons c s' ih =>
    intro t u h1 h2
    cases t with
    | nil => exact absurd h1 (by simp [strLtData])
    | cons d t' =>
      cases u with
      | nil => exact absurd h2 (by simp [strLtData])
      | cons e u' =>
        rw [strLtData_cons_false_iff] at h1 h2 ⊢
        rcases h1 with h1 | ⟨h1e, h1r⟩ <;> rcases h2 with h2 | ⟨h2e, h2r⟩
        · exact Or.inl (by omega)
        · exact Or.inl (by omega)
        · exact Or.inl (by omega)
        · exact Or.inr ⟨by omega, ih t' u' h1r h2r⟩

theorem localeLe_iff_strLt : ∀ a b : String,
    localeLe a b = true ↔ strLt b a = false := by
  intro a b
  unfold localeLe localeCompareEn
  cases h1 : strLt a b <;> cases h2 : strLt b a
  · exact iff_of_true rfl rfl
  · exact iff_of_false (fun hh => nomatch hh) (fun hh => nomatch hh)
  · exact iff_of_true rfl rfl
  · exact (strLtData_asymm a.data b.data h1 h2).elim

theorem localeLe_trans : ∀ a b c : String,
    localeLe a b = true → localeLe b c = true → localeLe a c = true :=
  fun a b c h1 h2 =>
    (localeLe_iff_strLt a c).mpr
      (strLtData_neg_trans a.data b.data c.data
        ((localeLe_iff_strLt a b).mp h1) ((localeLe_iff_strLt b c).mp h2))

theorem localeLe_total : ∀ a b : String, (localeLe a b || localeLe b a) = true := by
  intro a b
  unfold localeLe localeCompareEn
  cases h1 : strLt a b <;> cases h2 : strLt b a <;> rfl

theorem perm_insertLe (x : String) (l : List String) :
    (insertLe x l).Perm (x :: l) := by
  induction l with
  | nil => exact List.Perm.refl _
  | cons y t ih =>
    unfold insertLe
    split
    · exact List.Perm.refl _
    · exact (ih.cons y).trans (List.Perm.swap x y t)

theorem sortEn_perm (l : List String) : (Glob.sortEn l).Perm l := by
  induction l with
  | nil => exact List.Perm.refl _
  | cons x t ih =>
    show (insertLe x (Glob.sortEn t)).Perm (x :: t)
    exact (perm_insertLe x _).trans (ih.cons x)

theorem pairwise_insertLe {x : String} {l : List String}
    (h : l.Pairwise (fun a b => localeLe a b = true)) :
    (insertLe x l).Pairwise (fun a b => localeLe a b = true) := by
  induction l with
  | nil => simp [insertLe]
  | cons y t ih =>
    unfold insertLe
    split
    · rename_i hxy
      refine List.Pairwise.cons ?_ h
      intro b hb
      rcases List.mem_cons.mp hb with rfl | hbt
      · exact hxy
      · exact localeLe_trans x y b hxy ((List.pairwise_cons.mp h).1 b hbt)
    · rename_i hxy
      have hyx : localeLe y x = true := by
        have htot := localeLe_total x y
        rcases Bool.or_eq_true_iff.mp htot with hcase | hcase
        · exact absurd hcase hxy
        · exact hcase
      obtain ⟨hy, ht⟩ := List.pairwise_cons.mp h
      refine List.Pairwise.cons ?_ (ih ht)
      intro b hb
      have hb' := (perm_insertLe x t).mem_iff.mp hb
      rcases List.mem_cons.mp hb' with rfl | hbt
      · exact hyx
      · exact hy b hbt

theorem sortEn_sorted (l : List String) :
    (Glob.sortEn l).Pairwise (fun a b => localeLe a b = true) := by
  induction l with
  | nil => simp [Glob.sortEn]
  | cons x t ih =>
    show (insertLe x (Glob.sortEn t)).Pairwise (fun a b => localeLe a b = true)
    exact pairwise_insertLe ih

theorem finish_cons {α : Type} (g : Glob α) (m0 : List String)
    (rest : List (List String)) :
    g.finish (m0 :: rest) =
      Except.ok (if g.nosort then
          (if g.nounique then m0 ++ (m0 :: rest).flatten else m0)
        else Glob.sortEn (if g.nounique then m0 ++ (m0 :: rest).flatten else m0)) :=
  rfl

theorem finish_out_eq {α : Type} (g : Glob α) (m0 : List String)
    (rest : List (List String)) (out : List String)
    (h : g.finish (m0 :: rest) = Except.ok out) :
    out = (if g.nosort then
        (if g.nounique then m0 ++ (m0 :: rest).flatten else m0)
      else Glob.sortEn (if g.nounique then m0 ++ (m0 :: rest).flatten else m0)) := by
  rw [finish_cons] at h
  exact (Except.ok.inj h).symm

theorem finish_out_perm {α : Type} (g : Glob α) (m0 : List String)
    (rest : List (List String)) (out : List String)
    (h : g.finish (m0 :: rest) = Except.ok out) :
    out.Perm (if g.nounique then m0 ++ (m0 :: rest).flatten else m0) := by
  have he := finish_out_eq g m0 rest out h
  by_cases hns : g.nosort = true
  · rw [he, if_pos hns]
  · rw [he, if_neg hns]
    exact sortEn_perm _

theorem doNonull_cons {α : Type} (g : Glob α) (m0 : List String)
    (rest : List (List String)) :
    g.doNonull (m0 :: rest) =
      jsSetAddAll m0 ((List.range (m0 :: rest).length).filterMap fun i =>
        if ((m0 :: rest).getD i []).isEmpty && g.nonull then
          some (g.globSet.getD i "")
        else none) :: rest :=
  rfl

theorem pipeline_empty {α : Type} (g : Glob α) (w : Nat → List String)
    (h0 : g.matchSet.length = 0) :
    g.finish (g.doNonull (walkResults g.nounique g.matchSet.length w)) =
      Except.error "TypeError: matches is not iterable" := by
  rw [h0]
  have hw : walkResults g.nounique 0 w = [] := by
    unfold walkResults
    split <;> simp
  rw [hw]
  rfl

theorem pipeline_nonempty {α : Type} (g : Glob α) (w : Nat → List String)
    (h0 : g.matchSet.length ≠ 0) :
    ∃ out, g.finish (g.doNonull (walkResults g.nounique g.matchSet.length w)) =
      Except.ok out := by
  have hlen := length_walkResults g.nounique g.matchSet.length w
  cases hms : walkResults g.nounique g.matchSet.length w with
  | nil =>
    rw [hms] at hlen
    simp at hlen
    omega
  | cons m0 rest =>
    rw [doNonull_cons, finish_cons]
    exact ⟨_, rfl⟩

/-! Claims. -/

/-- C1: for every match operation, `finish` builds the output starting from
result-set 0's members; when `nounique` is set it additionally appends every
member of every result set (result-set 0 again included) in alternative
order, and this is the only case in which the output may contain duplicates
(given result-set 0 is duplicate-free, as a set is). -/
theorem claim_C1 {α : Type} (g : Glob α) (m0 : List String)
    (rest : List (List String)) (out : List String) (hm0 : m0.Nodup)
    (h : g.finish (m0 :: rest) = Except.ok out) :
    (g.nounique = true →
        out.Perm (m0 ++ (m0 :: rest).flatten)
        ∧ (g.nosort = true → out = m0 ++ (m0 :: rest).flatten))
    ∧ (g.nounique = false →
        out.Perm m0 ∧ (g.nosort = true → out = m0) ∧ out.Nodup) := by
  have hp := finish_out_perm g m0 rest out h
  have he := finish_out_eq g m0 rest out h
  constructor
  · intro hnu
    rw [if_pos hnu] at hp
    refine ⟨hp, fun hns => ?_⟩
    rw [he, if_pos hns, if_pos hnu]
  · intro hnu
    have hne : ¬ (g.nounique = true) := by simp [hnu]
    rw [if_neg hne] at hp
    refine ⟨hp, fun hns => ?_, hp.nodup_iff.mpr hm0⟩
    rw [he, if_pos hns, if_neg hne]

/-- Witness for C1 at a concrete input. -/
theorem claim_C1_witness :
    Glob.finish ({ nosort := true } : Glob Nat) [["b"], ["a"]] = Except.ok ["b"]
    ∧ List.Nodup ["b"] :=
  ⟨rfl,
   ((claim_C1 ({ nosort := true } : Glob Nat) ["b"] [["a"]] ["b"] (by decide)
      rfl).2 rfl).2.2⟩

/-- C4: requesting `matchBase` while `noglobstar` is set fails at
construction with the fatal invalid-configuration error, for every pattern
input and every compiler oracle (so before any compilation or matching; the
constructor is a pure function of its arguments, so no filesystem access is
even expressible). -/
theorem claim_C4 {α : Type} (mm : String → Minimatch α) (isWin32 : Bool)
    (pattern : List String) (options : GlobOptions)
    (hmb : options.matchBase = true) (hng : options.noglobstar = true) :
    Glob.create mm isWin32 pattern options =
      Except.error "base matching requires globstar" := by
  unfold Glob.create
  rw [hmb, hng]
  rfl

/-- Witness for C4 at a concrete input. -/
theorem claim_C4_witness :
    Glob.create mmId false ["FOO"] { matchBase := true, noglobstar := true } =
      Except.error "base matching requires globstar" :=
  claim_C4 mmId false ["FOO"] { matchBase := true, noglobstar := true } rfl rfl

/-- C5: unless `nosort` is set, the final sequence is sorted by the
fixed-locale comparator, and that comparator is a total order (transitive
and total on all strings, hence on all output members). -/
theorem claim_C5 {α : Type} (g : Glob α) (ms : List (List String))
    (out : List String) (hns : g.nosort = false)
    (h : g.finish ms = Except.ok out) :
    (∀ a b c : String,
        localeLe a b = true → localeLe b c = true → localeLe a c = true)
    ∧ (∀ a b : String, (localeLe a b || localeLe b a) = true)
    ∧ out.Pairwise (fun a b => localeLe a b = true) := by
  refine ⟨localeLe_trans, localeLe_total, ?_⟩
  cases ms with
  | nil => exact absurd h (by simp [Glob.finish])
  | cons m0 rest =>
    have he := finish_out_eq g m0 rest out h
    have hne : ¬ (g.nosort = true) := by simp [hns]
    rw [he, if_neg hne]
    exact sortEn_sorted _

/-- Witness for C5 at a concrete input. -/
theorem claim_C5_witness :
    Glob.finish ({} : Glob Nat) [["b", "a"]] = Except.ok ["a", "b"]
    ∧ (["a", "b"] : List String).Pairwise (fun a b => localeLe a b = true) :=
  ⟨rfl, (claim_C5 ({} : Glob Nat) [["b", "a"]] ["a", "b"] rfl rfl).2.2⟩

/-- C6: the asynchronous match operation and the blocking match operation
return identical final sequences, for every configuration, given the
traversal engine's contract that its suspending and blocking walks have
identical results per alternative. -/
theorem claim_C6 {α : Type} (g : Glob α) (o : WalkOracle)
    (hsame : ∀ i, o.walk i = o.walkSync i) :
    g.process o = g.processSync o := by
  have hw : o.walk = o.walkSync := funext hsame
  unfold Glob.process Glob.processSync
  rw [hw]

/-- Witness for C6 at a concrete input. -/
theorem claim_C6_witness :
    Glob.process gOne oAtxt = Glob.processSync gOne oAtxt :=
  claim_C6 gOne oAtxt (fun _ => rfl)

/-- C2: with `nounique` unset, every path in the final output appears
exactly once, even when it is discovered by two or more different
alternatives (all walkers share one uniqueness-enforcing collection) or
when the same pattern is supplied twice. -/
theorem claim_C2 {α : Type} (g : Glob α) (o : WalkOracle) (out : List String)
    (p : String) (hnu : g.nounique = false)
    (h : g.process o = Except.ok out) :
    out.Nodup ∧ (p ∈ out → out.count p = 1) := by
  unfold Glob.process at h
  cases hms : walkResults g.nounique g.matchSet.length o.walk with
  | nil =>
    rw [hms] at h
    exact absurd h (by simp [Glob.doNonull, Glob.finish])
  | cons m0 rest =>
    rw [hms, doNonull_cons] at h
    have hm0 : m0.Nodup := by
      have hmem : m0 ∈ walkResults g.nounique g.matchSet.length o.walk := by
        rw [hms]
        exact List.mem_cons_self _ _
      exact nodup_walkResults _ _ _ _ hmem
    have hperm := finish_out_perm g _ _ out h
    have hne : ¬ (g.nounique = true) := by simp [hnu]
    rw [if_neg hne] at hperm
    have hnodup : out.Nodup := hperm.nodup_iff.mpr (nodup_jsSetAddAll hm0)
    exact ⟨hnodup, fun hp => List.count_eq_one_of_mem hnodup hp⟩

/-- Witness for C2 at a concrete input: the same pattern supplied twice,
both alternatives discovering the same path, output holds it once. -/
theorem claim_C2_witness :
    Glob.create mmId false ["a.txt", "a.txt"] ({} : GlobOptions) = Except.ok gW2
    ∧ Glob.process gW2 oAtxt = Except.ok ["a.txt"]
    ∧ (["a.txt"] : List String).count "a.txt" = 1 :=
  ⟨rfl, rfl, (claim_C2 gW2 oAtxt ["a.txt"] "a.txt" rfl rfl).2 (by decide)⟩

/-- C3: with `nonull` set, every alternative whose traversal result set is
empty has its literal glob string added into result-set 0 by `doNonull`,
and it therefore appears in the final output. -/
theorem claim_C3 {α : Type} (g : Glob α) (o : WalkOracle) (i : Nat)
    (out : List String) (hnn : g.nonull = true)
    (hi : i < g.matchSet.length)
    (halign : g.globSet.length = g.matchSet.length)
    (hempty : (walkResults g.nounique g.matchSet.length o.walk).getD i [] = [])
    (h : g.process o = Except.ok out) :
    g.globSet.getD i "" ∈ out := by
  unfold Glob.process at h
  have hlen := length_walkResults g.nounique g.matchSet.length o.walk
  cases hms : walkResults g.nounique g.matchSet.length o.walk with
  | nil =>
    rw [hms] at hlen
    simp at hlen
    omega
  | cons m0 rest =>
    rw [hms] at hlen h hempty
    have hmem_nulls : g.globSet.getD i "" ∈
        (List.range (m0 :: rest).length).filterMap (fun j =>
          if ((m0 :: rest).getD j []).isEmpty && g.nonull then
            some (g.globSet.getD j "")
          else none) := by
      refine List.mem_filterMap.mpr ⟨i, ?_, ?_⟩
      · exact List.mem_range.mpr (by omega)
      · rw [hempty, hnn]
        rfl
    have hmem_head : g.globSet.getD i "" ∈
        jsSetAddAll m0 ((List.range (m0 :: rest).length).filterMap (fun j =>
          if ((m0 :: rest).getD j []).isEmpty && g.nonull then
            some (g.globSet.getD j "")
          else none)) :=
      mem_jsSetAddAll.mpr (Or.inr hmem_nulls)
    rw [doNonull_cons] at h
    have hperm := finish_out_perm g _ _ out h
    rw [hperm.mem_iff]
    by_cases hnu : g.nounique = true
    · rw [if_pos hnu]
      exact List.mem_append_left _ hmem_head
    · rw [if_neg hnu]
      exact hmem_head

/-- Witness for C3 at a concrete input: the scenario of a single pattern
matching nothing under `nonull`. -/
theorem claim_C3_witness :
    Glob.process gW3 oEmpty = Except.ok ["missing/*.xyz"]
    ∧ ("missing/*.xyz" : String) ∈ (["missing/*.xyz"] : List String) :=
  ⟨rfl, claim_C3 gW3 oEmpty 0 ["missing/*.xyz"] rfl (by decide) rfl rfl rfl⟩

/-- C10: the match operation is partial in the number of alternatives: with
zero compiled alternatives both `process` and `processSync` fail (`finish`
spreads the non-existent result-set 0), and with at least one alternative
this error branch is unreachable. -/
theorem claim_C10 {α : Type} (g : Glob α) (o : WalkOracle) :
    (g.matchSet = [] →
        g.process o = Except.error "TypeError: matches is not iterable"
        ∧ g.processSync o = Except.error "TypeError: matches is not iterable")
    ∧ (g.matchSet ≠ [] →
        (∃ out, g.process o = Except.ok out)
        ∧ (∃ out, g.processSync o = Except.ok out)) := by
  constructor
  · intro hemp
    have h0 : g.matchSet.length = 0 := by
      rw [hemp]
      rfl
    exact ⟨pipeline_empty g o.walk h0, pipeline_empty g o.walkSync h0⟩
  · intro hne
    have h0 : g.matchSet.length ≠ 0 := by
      intro hc
      exact hne (List.length_eq_zero.mp hc)
    exact ⟨pipeline_nonempty g o.walk h0, pipeline_nonempty g o.walkSync h0⟩

/-- Witness for C10 at concrete inputs: the empty pattern list throws in
both modes, one alternative succeeds. -/
theorem claim_C10_witness :
    Glob.process ({} : Glob Nat) oEmpty =
      Except.error "TypeError: matches is not iterable"
    ∧ Glob.processSync ({} : Glob Nat) oEmpty =
      Except.error "TypeError: matches is not iterable"
    ∧ Glob.process gOne oEmpty = Except.ok [] := by
  refine ⟨((claim_C10 ({} : Glob Nat) oEmpty).1 rfl).1,
    ((claim_C10 ({} : Glob Nat) oEmpty).1 rfl).2, ?_⟩
  obtain ⟨out, hout⟩ := ((claim_C10 gOne oEmpty).2 (by decide)).1
  have hoeq : out = [] := Except.ok.inj (hout.symm.trans rfl)
  rw [hoeq] at hout
  exact hout

theorem create_ok {α : Type} (mm : String → Minimatch α) (isWin32 : Bool)
    (pattern : List String) (options : GlobOptions) (g : Glob α)
    (h : Glob.create mm isWin32 pattern options = Except.ok g) :
    g.pattern = rewritePatterns options pattern
    ∧ g.cwd = normCwd isWin32 options
    ∧ g.matchSet = ((rewritePatterns options pattern).map mm).flatMap Minimatch.set
    ∧ g.globSet = ((rewritePatterns options pattern).map mm).flatMap Minimatch.globSet
    ∧ g.globParts =
        ((rewritePatterns options pattern).map mm).flatMap Minimatch.globParts := by
  unfold Glob.create at h
  split at h
  · exact absurd h (by simp)
  · have hg := Except.ok.inj h
    subst hg
    exact ⟨rfl, rfl, rfl, rfl, rfl⟩

theorem flatMap_lengths {α : Type} (ms : List (Minimatch α))
    (h : ∀ m ∈ ms, m.set.length = m.globSet.length
      ∧ m.globSet.length = m.globParts.length) :
    (ms.flatMap Minimatch.set).length = (ms.flatMap Minimatch.globSet).length
    ∧ (ms.flatMap Minimatch.globSet).length =
        (ms.flatMap Minimatch.globParts).length := by
  induction ms with
  | nil => exact ⟨rfl, rfl⟩
  | cons m t ih =>
    obtain ⟨h1, h2⟩ := h m (List.mem_cons_self _ _)
    obtain ⟨ih1, ih2⟩ := ih (fun x hx => h x (List.mem_cons_of_mem _ hx))
    have e1 : (m :: t).flatMap Minimatch.set = m.set ++ t.flatMap Minimatch.set := rfl
    have e2 : (m :: t).flatMap Minimatch.globSet
        = m.globSet ++ t.flatMap Minimatch.globSet := rfl
    have e3 : (m :: t).flatMap Minimatch.globParts
        = m.globParts ++ t.flatMap Minimatch.globParts := rfl
    rw [e1, e2, e3]
    simp only [List.length_append]
    omega

theorem zip_flatMap_align {α : Type} (ms : List (Minimatch α))
    (h : ∀ m ∈ ms, m.set.length = m.globSet.length
      ∧ m.globSet.length = m.globParts.length) :
    (ms.flatMap Minimatch.set).zip
        ((ms.flatMap Minimatch.globSet).zip (ms.flatMap Minimatch.globParts))
      = ms.flatMap (fun m => m.set.zip (m.globSet.zip m.globParts)) := by
  induction ms with
  | nil => rfl
  | cons m t ih =>
    obtain ⟨h1, h2⟩ := h m (List.mem_cons_self _ _)
    have ih' := ih (fun x hx => h x (List.mem_cons_of_mem _ hx))
    have e1 : (m :: t).flatMap Minimatch.set = m.set ++ t.flatMap Minimatch.set := rfl
    have e2 : (m :: t).flatMap Minimatch.globSet
        = m.globSet ++ t.flatMap Minimatch.globSet := rfl
    have e3 : (m :: t).flatMap Minimatch.globParts
        = m.globParts ++ t.flatMap Minimatch.globParts := rfl
    have e4 : (m :: t).flatMap (fun x => x.set.zip (x.globSet.zip x.globParts))
        = m.set.zip (m.globSet.zip m.globParts)
          ++ t.flatMap (fun x => x.set.zip (x.globSet.zip x.globParts)) := rfl
    rw [e1, e2, e3, e4, List.zip_append h2,
      List.zip_append (by rw [List.length_zip]; omega), ih']

/-- C7: after a successful construction the three parallel views
`matchSet`, `globSet` and `globParts` have equal length and are aligned by
index (zipping them gives exactly the per-alternative triples), with
alternatives flattened in input-pattern order then alternative order within
a pattern, given the compiler's contract that each compiled instance's
three views are aligned. -/
theorem claim_C7 {α : Type} (mm : String → Minimatch α) (isWin32 : Bool)
    (pattern : List String) (options : GlobOptions) (g : Glob α)
    (halign : ∀ p : String, (mm p).set.length = (mm p).globSet.length
      ∧ (mm p).globSet.length = (mm p).globParts.length)
    (h : Glob.create mm isWin32 pattern options = Except.ok g) :
    g.matchSet.length = g.globSet.length
    ∧ g.globSet.length = g.globParts.length
    ∧ g.matchSet = (g.pattern.map mm).flatMap Minimatch.set
    ∧ g.globSet = (g.pattern.map mm).flatMap Minimatch.globSet
    ∧ g.globParts = (g.pattern.map mm).flatMap Minimatch.globParts
    ∧ g.matchSet.zip (g.globSet.zip g.globParts)
      = (g.pattern.map mm).flatMap
          (fun m => m.set.zip (m.globSet.zip m.globParts)) := by
  obtain ⟨hp, hc, hm, hgs, hgp⟩ := create_ok mm isWin32 pattern options g h
  have hall : ∀ m ∈ (rewritePatterns options pattern).map mm,
      m.set.length = m.globSet.length ∧ m.globSet.length = m.globParts.length := by
    intro m hmem
    obtain ⟨p, _, rfl⟩ := List.mem_map.mp hmem
    exact halign p
  obtain ⟨hl1, hl2⟩ := flatMap_lengths ((rewritePatterns options pattern).map mm) hall
  refine ⟨?_, ?_, ?_, ?_, ?_, ?_⟩
  · rw [hm, hgs]
    exact hl1
  · rw [hgs, hgp]
    exact hl2
  · rw [hm, hp]
  · rw [hgs, hp]
  · rw [hgp, hp]
  · rw [hm, hgs, hgp, hp]
    exact zip_flatMap_align _ hall

/-- Witness for C7 at a concrete input: two patterns, two alternatives
each. -/
theorem claim_C7_witness :
    Glob.create mmTwo false ["x", "y"] ({} : GlobOptions) = Except.ok gW7
    ∧ gW7.matchSet.zip (gW7.globSet.zip gW7.globParts)
      = (gW7.pattern.map mmTwo).flatMap
          (fun m => m.set.zip (m.globSet.zip m.globParts)) :=
  ⟨rfl,
   (claim_C7 mmTwo false ["x", "y"] ({} : GlobOptions) gW7
      (fun _ => ⟨rfl, rfl⟩) rfl).2.2.2.2.2⟩

/-- Counterexample to C8 as stated: on a host that does NOT use backslash
separators (`isWin32 = false`), with `windowsPathsNoEscape` set, the input
pattern still has its backslashes replaced — the pattern-replacement step
is not guarded by the platform test (only the cwd step is). -/
theorem claim_C8_counterexample :
    (Glob.create mmId false ["a\\b"] { windowsPathsNoEscape := true }).map
      Glob.pattern = Except.ok ["a/b"]
    ∧ ("a\\b" : String) ≠ "a/b" :=
  ⟨rfl, by decide⟩

/-- C8 amended: at construction, backslashes in `cwd` are replaced by
forward slashes exactly when the host platform uses backslash separators;
backslashes in every input pattern are replaced whenever
`windowsPathsNoEscape` is set (directly, or via `allowWindowsEscape` being
`false`), regardless of platform. -/
theorem claim_C8_amended {α : Type} (mm : String → Minimatch α) (isWin32 : Bool)
    (pattern : List String) (options : GlobOptions) (g : Glob α)
    (hmb : options.matchBase = false)
    (h : Glob.create mm isWin32 pattern options = Except.ok g) :
    g.cwd = (if isWin32 then replaceBackslashes (options.cwd.getD "")
      else options.cwd.getD "")
    ∧ g.pattern =
        (if options.windowsPathsNoEscape || options.allowWindowsEscape == some false
          then pattern.map replaceBackslashes else pattern) := by
  obtain ⟨hp, hc, _, _, _⟩ := create_ok mm isWin32 pattern options g h
  constructor
  · rw [hc]
    rfl
  · rw [hp]
    unfold rewritePatterns effectiveWpne
    rw [hmb]
    rfl

/-- Witness for the amended C8 at a concrete input: win32 host, escape
disabled via the legacy flag. -/
theorem claim_C8_amended_witness :
    Glob.create mmId true ["c\\d"]
        { cwd := some "a\\b", allowWindowsEscape := some false } = Except.ok gW8
    ∧ gW8.cwd = "a/b"
    ∧ gW8.pattern = ["c/d"] := by
  refine ⟨rfl, ?_, ?_⟩
  · exact (claim_C8_amended mmId true ["c\\d"]
      { cwd := some "a\\b", allowWindowsEscape := some false } gW8 rfl rfl).1.trans
      (by rfl)
  · exact (claim_C8_amended mmId true ["c\\d"]
      { cwd := some "a\\b", allowWindowsEscape := some false } gW8 rfl rfl).2.trans
      (by rfl)

/-- C9: running the same configuration twice against an unchanged
filesystem (the same walker oracle) yields identical output in the default
sorted, deduplicated mode — the pipeline has no hidden state. -/
theorem claim_C9 {α : Type} (mm : String → Minimatch α) (isWin32 : Bool)
    (pattern : List String) (options : GlobOptions) (o : WalkOracle)
    (g1 g2 : Glob α) (out1 out2 : List String)
    (_hnu : options.nounique = false) (_hns : options.nosort = false)
    (h1 : Glob.create mm isWin32 pattern options = Except.ok g1)
    (h2 : Glob.create mm isWin32 pattern options = Except.ok g2)
    (hp1 : g1.process o = Except.ok out1)
    (hp2 : g2.process o = Except.ok out2) :
    out1 = out2 := by
  have hg : g1 = g2 := Except.ok.inj (h1.symm.trans h2)
  rw [hg] at hp1
  exact Except.ok.inj (hp1.symm.trans hp2)

/-- Witness for C9 at a concrete input. -/
theorem claim_C9_witness :
    Glob.create mmId false ["x"] ({} : GlobOptions) = Except.ok gOne
    ∧ Glob.process gOne oAtxt = Except.ok ["a.txt"]
    ∧ (["a.txt"] : List String) = ["a.txt"] :=
  ⟨rfl, rfl,
   claim_C9 mmId false ["x"] ({} : GlobOptions) oAtxt gOne gOne
     ["a.txt"] ["a.txt"] rfl rfl rfl rfl rfl rfl⟩

end NodeGlob
